import Mathlib

/-!
Verification development for the `flight_delays` data-preparation pipeline
(`src/flight_delays/nodes.py`).

The pipeline's tables are modelled shallowly: a `Table` is an ordered schema
(list of column names) together with a list of rows, each row a list of cell
values aligned positionally with the schema.  Cell values are nulls, integers
or strings.  The Spark dataframe primitives used by the source
(`select`, `dropna`, `withColumn`, `where`, `drop`, `randomSplit`) are given
explicit definitions; column-resolution failures (Spark `AnalysisException`)
and the negative-weight check of `randomSplit` (Python `ValueError`) are the
two error outcomes, encoded as `PipeError.schemaError` and
`PipeError.configError` following the spec's error taxonomy.  The randomness
of `randomSplit` is abstracted as an explicit row-assignment oracle
`assign : Nat → Bool` (`true` = train partition).
-/

set_option autoImplicit false
set_option linter.unusedVariables false

/-- Decidable equality of `Except` results, for evaluating the pipeline on
concrete inputs. -/
instance instDecEqExcept {ε α : Type} [DecidableEq ε] [DecidableEq α] :
    DecidableEq (Except ε α) := fun a b =>
  match a, b with
  | Except.ok x, Except.ok y =>
    if h : x = y then Decidable.isTrue (by rw [h])
    else Decidable.isFalse (fun hc => by cases hc; exact h rfl)
  | Except.error x, Except.error y =>
    if h : x = y then Decidable.isTrue (by rw [h])
    else Decidable.isFalse (fun hc => by cases hc; exact h rfl)
  | Except.ok _, Except.error _ => Decidable.isFalse (fun hc => by cases hc)
  | Except.error _, Except.ok _ => Decidable.isFalse (fun hc => by cases hc)

namespace FlightDelays

/-- A cell value of a table: null, an integer, or a string. -/
inductive Value where
  | null : Value
  | int : Int → Value
  | str : String → Value
deriving DecidableEq

/-- A row is a list of cell values, positionally aligned with the schema. -/
abbrev Row := List Value

/-- A table: an ordered list of column names and a list of rows. -/
structure Table where
  schema : List String
  rows : List Row
deriving DecidableEq

/-- Well-formedness: every row has exactly one cell per schema column. -/
def TableWF (t : Table) : Prop :=
  ∀ r ∈ t.rows, r.length = t.schema.length

instance instDecTableWF (t : Table) : Decidable (TableWF t) :=
  inferInstanceAs (Decidable (∀ r ∈ t.rows, r.length = t.schema.length))

/-- Errors of the pipeline: `schemaError c` models Spark's
`AnalysisException` for an unresolvable column reference `c`
(the spec's `SchemaError`); `configError` models the `ValueError`
raised by `randomSplit` on a negative weight (the spec's
`ConfigurationError` for a bad fraction). -/
inductive PipeError where
  | schemaError : String → PipeError
  | configError : PipeError
deriving DecidableEq

/-- The configuration mapping (`parameters.yml`), restricted to the four
keys the pipeline reads. -/
structure Params where
  l_cols : List String
  features : List String
  target_column : String
  train_fraction : ℚ

/-! ### String helpers (kernel-reducible versions of the Spark built-ins) -/

/-- Uppercase every character (Spark `upper`). -/
def upperStr (s : String) : String :=
  String.mk (s.data.map Char.toUpper)

/-- Strip leading and trailing space characters (Spark `trim`). -/
def trimSpaces (s : String) : String :=
  String.mk (((s.data.dropWhile (fun c => c == ' ')).reverse.dropWhile
    (fun c => c == ' ')).reverse)

/-- Digit-string to number: `some n` when the list is a nonempty list of
decimal digits. -/
def digitsToNat : List Char → Option Nat
  | [] => none
  | [c] => if c.isDigit then some (c.toNat - '0'.toNat) else none
  | c :: rest =>
    if c.isDigit then
      (digitsToNat rest).map (fun n => (c.toNat - '0'.toNat) * 10 ^ rest.length + n)
    else none

/-- Parse an optionally signed integer string (Spark string-to-int cast,
restricted to the integral strings the pipeline feeds it). -/
def parseIntStr (s : String) : Option Int :=
  match s.data with
  | '-' :: rest => (digitsToNat rest).map (fun n => -(n : Int))
  | l => (digitsToNat l).map (fun n => (n : Int))

/-- Split a character list at `-` separators, keeping empty segments
(Spark `split(col, "-")`). -/
def splitDashAux : List Char → List Char → List String
  | [], acc => [String.mk acc.reverse]
  | c :: cs, acc =>
    if c == '-' then String.mk acc.reverse :: splitDashAux cs []
    else splitDashAux cs (c :: acc)

/-- Split a string on `-` (Spark `split(col, "-")`). -/
def splitDash (s : String) : List String :=
  splitDashAux s.data []

/-! ### Column resolution and row access -/

/-- Index of the first schema column named `c` (Spark column resolution). -/
def colIdx (s : List String) (c : String) : Option Nat :=
  match s with
  | [] => none
  | a :: rest => if a = c then some 0 else (colIdx rest c).map (fun i => i + 1)

/-- The value of column `c` in row `r` under schema `s`
(`Value.null` when the column cannot be resolved). -/
def getCol (s : List String) (r : Row) (c : String) : Value :=
  match colIdx s c with
  | some i => r.getD i Value.null
  | none => Value.null

/-- Remove from row `r` the cells at the positions where schema `s` has
column `c` (row part of Spark `drop`). -/
def dropRowCells (s : List String) (c : String) (r : Row) : Row :=
  match s, r with
  | a :: rest, v :: vs =>
    if a = c then dropRowCells rest c vs else v :: dropRowCells rest c vs
  | _, _ => r

/-- The value of column `c` in the `i`-th row of `t`. -/
def getCell (t : Table) (c : String) (i : Nat) : Value :=
  getCol t.schema (t.rows.getD i []) c

/-! ### Dataframe primitives -/

/-- Spark `df.select(cols)`: the first requested column that is missing,
if any. -/
def firstMissing (s : List String) : List String → Option String
  | [] => none
  | c :: cs => if c ∈ s then firstMissing s cs else some c

/-- Spark `df.select(cols)`: project onto the named columns, in order;
fails when a requested column is absent. -/
def selectTable (t : Table) (cols : List String) : Except PipeError Table :=
  match firstMissing t.schema cols with
  | some c => Except.error (PipeError.schemaError c)
  | none => Except.ok ⟨cols, t.rows.map (fun r => cols.map (fun c => getCol t.schema r c))⟩

/-- Spark `df.dropna()`: drop every row containing a null. -/
def dropna (t : Table) : Table :=
  ⟨t.schema, t.rows.filter (fun r => decide (Value.null ∉ r))⟩

/-- Spark `df.withColumn(name, f(col(src)))`: add column `name` computed
cellwise by `f` from column `src` (replacing `name` in place when it
already exists, appending it otherwise); fails when `src` is absent. -/
def withColumnFrom (t : Table) (name src : String) (f : Value → Value) :
    Except PipeError Table :=
  match colIdx t.schema src with
  | none => Except.error (PipeError.schemaError src)
  | some j =>
    match colIdx t.schema name with
    | some i =>
      Except.ok ⟨t.schema, t.rows.map (fun r => r.set i (f (r.getD j Value.null)))⟩
    | none =>
      Except.ok ⟨t.schema ++ [name], t.rows.map (fun r => r ++ [f (r.getD j Value.null)])⟩

/-- Spark `df.where(p(col(c)))`: keep the rows whose `c` value satisfies `p`;
fails when `c` is absent. -/
def whereCol (t : Table) (c : String) (p : Value → Bool) : Except PipeError Table :=
  match colIdx t.schema c with
  | none => Except.error (PipeError.schemaError c)
  | some _ => Except.ok ⟨t.schema, t.rows.filter (fun r => p (getCol t.schema r c))⟩

/-- Spark `df.drop(c)`: remove column `c` (a no-op when absent). -/
def dropCol (t : Table) (c : String) : Table :=
  ⟨t.schema.filter (fun a => decide (a ≠ c)), t.rows.map (dropRowCells t.schema c)⟩

/-- The rows assigned by the oracle to partition `b`, starting at index `i`
(row part of Spark `randomSplit` with the randomness made explicit). -/
def pickRows (assign : Nat → Bool) (b : Bool) : Nat → List Row → List Row
  | _, [] => []
  | i, r :: rs =>
    if assign i = b then r :: pickRows assign b (i + 1) rs
    else pickRows assign b (i + 1) rs

/-! ### Cellwise functions used by the nodes -/

/-- `trim(upper(col))` on a cell: Spark implicitly casts an integer to its
decimal string before `upper`; null stays null. -/
def trimUpperVal : Value → Value
  | Value.null => Value.null
  | Value.int n => Value.str (toString n)
  | Value.str s => Value.str (trimSpaces (upperStr s))

/-- Spark `length(col)` on a cell (null for null input; integers are cast
to their decimal string first). -/
def valueLength : Value → Option Nat
  | Value.null => none
  | Value.int n => some (toString n).length
  | Value.str s => some s.length

/-- `(col("DepTime") / 100).cast(IntegerType())` on a cell: exact division
then truncation toward zero; non-numeric input yields null. -/
def depHourFn : Value → Value
  | Value.null => Value.null
  | Value.int n => Value.int (Int.tdiv n 100)
  | Value.str s =>
    match parseIntStr s with
    | some n => Value.int (Int.tdiv n 100)
    | none => Value.null

/-- `split(col("FlightDate"), "-").getItem(k).cast(IntegerType())` on a
cell: segment `k` of the `-`-split string parsed as an integer; null when
the segment is missing or non-numeric. -/
def dateSeg (k : Nat) : Value → Value
  | Value.null => Value.null
  | Value.int n =>
    match (splitDash (toString n)).getD k "" |> parseIntStr with
    | some m => Value.int m
    | none => Value.null
  | Value.str s =>
    match (splitDash s).get? k with
    | none => Value.null
    | some seg =>
      match parseIntStr seg with
      | some m => Value.int m
      | none => Value.null

/-! ### The pipeline nodes (`nodes.py`) -/

/-- `select_cols(df, params)`: `df.select(params["l_cols"])`. -/
def select_cols (df : Table) (params : Params) : Except PipeError Table :=
  selectTable df params.l_cols

/-- `clean_data(df, params)`:
`df.dropna().withColumn("Airline", trim(upper("Reporting_Airline")))
   .where(length(col("Airline")) == 2).drop("Reporting_Airline")`. -/
def clean_data (df : Table) (params : Params) : Except PipeError Table :=
  let t1 := dropna df
  match withColumnFrom t1 "Airline" "Reporting_Airline" trimUpperVal with
  | Except.error e => Except.error e
  | Except.ok t2 =>
    match whereCol t2 "Airline" (fun v => decide (valueLength v = some 2)) with
    | Except.error e => Except.error e
    | Except.ok t3 => Except.ok (dropCol t3 "Reporting_Airline")

/-- `feature_extraction(df, params)`: derive `DepHour` from `DepTime`,
drop `DepTime`, derive `DepMonth` and `DepYear` from `FlightDate`,
drop `FlightDate`. -/
def feature_extraction (df : Table) (params : Params) : Except PipeError Table :=
  match withColumnFrom df "DepHour" "DepTime" depHourFn with
  | Except.error e => Except.error e
  | Except.ok t1 =>
    let t2 := dropCol t1 "DepTime"
    match withColumnFrom t2 "DepMonth" "FlightDate" (dateSeg 1) with
    | Except.error e => Except.error e
    | Except.ok t3 =>
      match withColumnFrom t3 "DepYear" "FlightDate" (dateSeg 0) with
      | Except.error e => Except.error e
      | Except.ok t4 => Except.ok (dropCol t4 "FlightDate")

/-- `split_data(data, parameters)`: restrict to `parameters["features"]`,
`randomSplit([f, 1-f])` (pyspark raises `ValueError` when a weight is
negative; the per-row randomness is the explicit oracle `assign`), then
`drop`/`select` the target column of each partition.  Returns
`(X_train, X_test, y_train, y_test)`. -/
def split_data (data : Table) (parameters : Params) (assign : Nat → Bool) :
    Except PipeError (Table × Table × Table × Table) :=
  match selectTable data parameters.features with
  | Except.error e => Except.error e
  | Except.ok d =>
    if parameters.train_fraction < 0 ∨ 1 - parameters.train_fraction < 0 then
      Except.error PipeError.configError
    else
      let d_train : Table := ⟨d.schema, pickRows assign true 0 d.rows⟩
      let d_test : Table := ⟨d.schema, pickRows assign false 0 d.rows⟩
      let X_train := dropCol d_train parameters.target_column
      let X_test := dropCol d_test parameters.target_column
      match selectTable d_train [parameters.target_column] with
      | Except.error e => Except.error e
      | Except.ok y_train =>
        match selectTable d_test [parameters.target_column] with
        | Except.error e => Except.error e
        | Except.ok y_test => Except.ok (X_train, X_test, y_train, y_test)

/-- Number of positions where the two label sequences agree
(`(y_pred == y_test).sum()`). -/
def matchCount (y_pred y_test : List Value) : Nat :=
  ((y_pred.zip y_test).filter (fun p => decide (p.1 = p.2))).length

/-- `report_accuracy(y_pred, y_test)`: `(y_pred == y_test).sum() / len(y_test)`.
Pandas `==` requires identically-indexed series, and the division has no
defined result for an empty `y_test`; both cases are `none`. -/
def report_accuracy (y_pred y_test : List Value) : Option ℚ :=
  if y_pred.length = y_test.length then
    if y_test.length = 0 then none
    else some ((matchCount y_pred y_test : ℚ) / (y_test.length : ℚ))
  else none

/-- Re-running the Cleaner then the Deriver, as in the spec's idempotence
property. -/
def rerunCleanDerive (t : Table) (p : Params) : Except PipeError Table :=
  match clean_data t p with
  | Except.error e => Except.error e
  | Except.ok u => feature_extraction u p

/-! ### Row-level reading of `clean_data` (derived from the definitions
above, used to state what happens to an individual row) -/

/-- Schema after the Cleaner's `withColumn("Airline", ...)` step. -/
def airSchema (s : List String) : List String :=
  match colIdx s "Airline" with
  | some _ => s
  | none => s ++ ["Airline"]

/-- Schema of the Cleaner's output: the airline column added, the raw
`Reporting_Airline` column removed. -/
def cleanSchema (s : List String) : List String :=
  (airSchema s).filter (fun a => decide (a ≠ "Reporting_Airline"))

/-- Row after the Cleaner's `withColumn("Airline", ...)` step. -/
def cleanRowAux (s : List String) (r : Row) : Row :=
  match colIdx s "Airline" with
  | some i => r.set i (trimUpperVal (getCol s r "Reporting_Airline"))
  | none => r ++ [trimUpperVal (getCol s r "Reporting_Airline")]

/-- What `clean_data` does to one row: `none` when the row is discarded
(by `dropna` or by the airline length filter), `some` of the transformed
row when it is kept. -/
def cleanRow (s : List String) (r : Row) : Option Row :=
  if Value.null ∉ r then
    if valueLength (getCol (airSchema s) (cleanRowAux s r) "Airline") = some 2 then
      some (dropRowCells (airSchema s) "Reporting_Airline" (cleanRowAux s r))
    else none
  else none

/-! ### Column-resolution lemmas -/

theorem colIdx_none_iff (s : List String) (c : String) : colIdx s c = none ↔ c ∉ s := by
  induction s with
  | nil => simp [colIdx]
  | cons a rest ih =>
    by_cases h : a = c
    · simp [colIdx, h]
    · simp [colIdx, h, Option.map_eq_none', ih, Ne.symm h]

theorem colIdx_mem {s : List String} {c : String} (h : c ∈ s) :
    ∃ i, colIdx s c = some i := by
  rcases ho : colIdx s c with _ | i
  · exact absurd ((colIdx_none_iff s c).1 ho) (by simpa using h)
  · exact ⟨i, rfl⟩

theorem colIdx_some_lt {s : List String} {c : String} {i : Nat}
    (h : colIdx s c = some i) : i < s.length := by
  induction s generalizing i with
  | nil => simp [colIdx] at h
  | cons a rest ih =>
    by_cases ha : a = c
    · simp only [colIdx, if_pos ha, Option.some.injEq] at h
      simp only [List.length_cons]
      omega
    · simp [colIdx, ha] at h
      rcases h with ⟨j, hj, rfl⟩
      have := ih hj
      simp only [List.length_cons]
      omega

theorem colIdx_getD {s : List String} {c : String} {i : Nat}
    (h : colIdx s c = some i) : s.getD i "" = c := by
  induction s generalizing i with
  | nil => simp [colIdx] at h
  | cons a rest ih =>
    by_cases ha : a = c
    · simp [colIdx, ha] at h
      simp [← h, ha]
    · simp [colIdx, ha] at h
      rcases h with ⟨j, hj, rfl⟩
      simpa using ih hj

theorem colIdx_append_left {s s2 : List String} {c : String} {i : Nat}
    (h : colIdx s c = some i) : colIdx (s ++ s2) c = some i := by
  induction s generalizing i with
  | nil => simp [colIdx] at h
  | cons a rest ih =>
    by_cases ha : a = c
    · simp [colIdx, ha] at h ⊢
      exact h
    · simp [colIdx, ha] at h ⊢
      rcases h with ⟨j, hj, rfl⟩
      exact ⟨j, ih hj, rfl⟩

theorem colIdx_append_self {s : List String} {c : String} (h : c ∉ s) :
    colIdx (s ++ [c]) c = some s.length := by
  induction s with
  | nil => simp [colIdx]
  | cons a rest ih =>
    have ha : a ≠ c := by intro hc; exact h (by simp [hc])
    have hrest : c ∉ rest := fun hc => h (by simp [hc])
    simp [colIdx, ha, ih hrest]

theorem colIdx_append_none {s : List String} {c x : String}
    (hc : c ∉ s) (hx : c ≠ x) : colIdx (s ++ [x]) c = none :=
  (colIdx_none_iff _ _).2 (by simp [hc, hx])

/-! ### `List.getD` lemmas -/

theorem getD_set_self {l : List Value} {i : Nat} {v d : Value}
    (h : i < l.length) : (l.set i v).getD i d = v := by
  induction l generalizing i with
  | nil => simp at h
  | cons x xs ih =>
    cases i with
    | zero => rfl
    | succ j => simpa using ih (by simpa using h)

theorem getD_set_ne {l : List Value} {i j : Nat} {v d : Value}
    (h : i ≠ j) : (l.set j v).getD i d = l.getD i d := by
  induction l generalizing i j with
  | nil => simp
  | cons x xs ih =>
    cases j with
    | zero =>
      cases i with
      | zero => exact absurd rfl h
      | succ i2 => rfl
    | succ j2 =>
      cases i with
      | zero => rfl
      | succ i2 => simpa using ih (fun hc => h (by rw [hc]))

theorem getD_append_left {l l2 : List Value} {i : Nat} {d : Value}
    (h : i < l.length) : (l ++ l2).getD i d = l.getD i d := by
  induction l generalizing i with
  | nil => simp at h
  | cons x xs ih =>
    cases i with
    | zero => rfl
    | succ j => simpa using ih (by simpa using h)

theorem getD_append_self {l : List Value} {l2 : List Value} {d : Value} :
    (l ++ l2).getD l.length d = l2.getD 0 d := by
  induction l with
  | nil => rfl
  | cons x xs ih => simpa using ih

theorem getD_map {α β : Type} (f : α → β) {l : List α} {i : Nat}
    (h : i < l.length) (d : α) (d2 : β) : (l.map f).getD i d2 = f (l.getD i d) := by
  induction l generalizing i with
  | nil => simp at h
  | cons x xs ih =>
    cases i with
    | zero => rfl
    | succ j => simpa using ih (by simpa using h)

theorem getD_mem {α : Type} {l : List α} {i : Nat} {d : α}
    (h : i < l.length) : l.getD i d ∈ l := by
  induction l generalizing i with
  | nil => simp at h
  | cons x xs ih =>
    cases i with
    | zero => simp [List.getD]
    | succ j =>
      have := ih (i := j) (by simpa using h)
      simp [List.getD] at this ⊢
      exact Or.inr this

/-! ### `getCol` lemmas -/

theorem getCol_eq {s : List String} {r : Row} {c : String} {i : Nat}
    (h : colIdx s c = some i) : getCol s r c = r.getD i Value.null := by
  simp [getCol, h]

theorem getCol_eq_null {s : List String} {r : Row} {c : String} (h : c ∉ s) :
    getCol s r c = Value.null := by
  simp [getCol, (colIdx_none_iff s c).2 h]

theorem getCol_mem {s : List String} {r : Row} {c : String}
    (hc : c ∈ s) (hlen : r.length = s.length) : getCol s r c ∈ r := by
  obtain ⟨i, hi⟩ := colIdx_mem hc
  rw [getCol_eq hi]
  exact getD_mem (by rw [hlen]; exact colIdx_some_lt hi)

theorem getCol_cons_ne {a c : String} {v : Value} {s : List String} {r : Row}
    (h : a ≠ c) : getCol (a :: s) (v :: r) c = getCol s r c := by
  simp only [getCol, colIdx, if_neg h]
  rcases colIdx s c with _ | i <;> simp [List.getD]

theorem getCol_cons_self {c : String} {v : Value} {s : List String} {r : Row} :
    getCol (c :: s) (v :: r) c = v := by
  simp [getCol, colIdx, List.getD]

theorem getCol_set_self {s : List String} {r : Row} {c : String} {i : Nat} {v : Value}
    (hidx : colIdx s c = some i) (hlen : r.length = s.length) :
    getCol s (r.set i v) c = v := by
  rw [getCol_eq hidx]
  exact getD_set_self (by rw [hlen]; exact colIdx_some_lt hidx)

theorem getCol_set_other {s : List String} {r : Row} {c c2 : String} {j : Nat} {v : Value}
    (hne : c ≠ c2) (hj : colIdx s c2 = some j) :
    getCol s (r.set j v) c = getCol s r c := by
  rcases hc : colIdx s c with _ | i
  · simp [getCol, hc]
  · rw [getCol_eq hc, getCol_eq hc]
    have hij : i ≠ j := by
      intro hij
      exact hne (by rw [← colIdx_getD hc, ← colIdx_getD hj, hij])
    exact getD_set_ne hij

theorem getCol_append_cell {s : List String} {r : Row} {c x : String} {v : Value}
    (hne : c ≠ x) (hlen : r.length = s.length) :
    getCol (s ++ [x]) (r ++ [v]) c = getCol s r c := by
  by_cases hc : c ∈ s
  · obtain ⟨i, hi⟩ := colIdx_mem hc
    rw [getCol_eq (colIdx_append_left hi), getCol_eq hi]
    exact getD_append_left (by rw [hlen]; exact colIdx_some_lt hi)
  · rw [getCol_eq_null hc]
    simp [getCol, colIdx_append_none hc hne]

theorem getCol_append_self {s : List String} {r : Row} {c : String} {v : Value}
    (h : c ∉ s) (hlen : r.length = s.length) :
    getCol (s ++ [c]) (r ++ [v]) c = v := by
  rw [getCol_eq (colIdx_append_self h), ← hlen, getD_append_self]
  rfl

/-! ### `dropRowCells` lemmas -/

theorem dropRowCells_length {s : List String} {c : String} :
    ∀ {r : Row}, r.length = s.length →
      (dropRowCells s c r).length = (s.filter (fun a => decide (a ≠ c))).length := by
  induction s with
  | nil =>
    intro r h
    cases r with
    | nil => rfl
    | cons v vs => simp at h
  | cons a rest ih =>
    intro r h
    cases r with
    | nil => simp at h
    | cons v vs =>
      have hlen : vs.length = rest.length := by simp at h; exact h
      by_cases ha : a = c
      · rw [show dropRowCells (a :: rest) c (v :: vs) = dropRowCells rest c vs from by
              simp [dropRowCells, ha],
            show (a :: rest).filter (fun x => decide (x ≠ c))
              = rest.filter (fun x => decide (x ≠ c)) from by simp [List.filter_cons, ha],
            ih hlen]
      · rw [show dropRowCells (a :: rest) c (v :: vs) = v :: dropRowCells rest c vs from by
              simp [dropRowCells, ha],
            show (a :: rest).filter (fun x => decide (x ≠ c))
              = a :: rest.filter (fun x => decide (x ≠ c)) from by simp [List.filter_cons, ha]]
        simp only [List.length_cons, ih hlen]

theorem mem_dropRowCells {s : List String} {c : String} :
    ∀ {r : Row} {v : Value}, v ∈ dropRowCells s c r → v ∈ r := by
  induction s with
  | nil =>
    intro r v h
    cases r with
    | nil => exact h
    | cons x xs => exact h
  | cons a rest ih =>
    intro r v h
    cases r with
    | nil => simp [dropRowCells] at h
    | cons x xs =>
      by_cases ha : a = c
      · simp only [dropRowCells, if_pos ha] at h
        exact List.mem_cons_of_mem x (ih h)
      · simp only [dropRowCells, if_neg ha] at h
        rcases List.mem_cons.1 h with h1 | h2
        · simp [h1]
        · exact List.mem_cons_of_mem x (ih h2)

theorem getCol_dropRowCells {c0 c : String} (hne : c ≠ c0) :
    ∀ {s : List String} {r : Row}, r.length = s.length →
      getCol (s.filter (fun a => decide (a ≠ c0))) (dropRowCells s c0 r) c
        = getCol s r c := by
  intro s
  induction s with
  | nil =>
    intro r h
    cases r with
    | nil => rfl
    | cons v vs => simp at h
  | cons a rest ih =>
    intro r h
    cases r with
    | nil => simp at h
    | cons v vs =>
      have hlen : vs.length = rest.length := by simpa using h
      by_cases ha : a = c0
      · have hac : a ≠ c := by rw [ha]; exact Ne.symm hne
        rw [show (a :: rest).filter (fun a => decide (a ≠ c0))
              = rest.filter (fun a => decide (a ≠ c0)) by simp [ha]]
        rw [show dropRowCells (a :: rest) c0 (v :: vs) = dropRowCells rest c0 vs by
              simp [dropRowCells, ha]]
        rw [ih hlen, getCol_cons_ne hac]
      · rw [show (a :: rest).filter (fun a => decide (a ≠ c0))
              = a :: rest.filter (fun a => decide (a ≠ c0)) by simp [ha]]
        rw [show dropRowCells (a :: rest) c0 (v :: vs) = v :: dropRowCells rest c0 vs by
              simp [dropRowCells, ha]]
        by_cases hac : a = c
        · rw [hac, getCol_cons_self, getCol_cons_self]
        · rw [getCol_cons_ne hac, getCol_cons_ne hac, ih hlen]

/-! ### Characterizations of the dataframe primitives -/

theorem withColumnFrom_char (t : Table) (name src : String) (f : Value → Value)
    (hsrc : src ∈ t.schema) :
    ∃ (u : Table) (g : Row → Row), withColumnFrom t name src f = Except.ok u ∧
      u.rows = t.rows.map g ∧
      (∀ c, c ∈ u.schema ↔ c ∈ t.schema ∨ c = name) ∧
      ∀ r : Row, r.length = t.schema.length →
        (g r).length = u.schema.length ∧
        getCol u.schema (g r) name = f (getCol t.schema r src) ∧
        (∀ c, c ≠ name → getCol u.schema (g r) c = getCol t.schema r c) ∧
        (∀ v, v ∈ g r → v ∈ r ∨ v = f (getCol t.schema r src)) := by
  obtain ⟨j, hj⟩ := colIdx_mem hsrc
  have hread : ∀ r : Row, r.getD j Value.null = getCol t.schema r src :=
    fun r => (getCol_eq hj).symm
  rcases hn : colIdx t.schema name with _ | i
  · -- the column is new: it is appended at the end of the schema
    have hnotin : name ∉ t.schema := (colIdx_none_iff _ _).1 hn
    refine ⟨⟨t.schema ++ [name], t.rows.map (fun r => r ++ [f (r.getD j Value.null)])⟩,
      fun r => r ++ [f (r.getD j Value.null)], ?_, rfl, ?_, ?_⟩
    · simp [withColumnFrom, hj, hn]
    · intro c; simp
    · intro r hlen
      dsimp only
      refine ⟨by simp [hlen], ?_, ?_, ?_⟩
      · rw [hread r]; exact getCol_append_self hnotin hlen
      · intro c hc; rw [hread r]; exact getCol_append_cell hc hlen
      · intro v hv
        rcases List.mem_append.1 hv with h1 | h2
        · exact Or.inl h1
        · right; rw [hread r] at h2; simpa using h2
  · -- the column already exists: it is replaced in place
    have hin : name ∈ t.schema := by
      by_contra hc
      rw [(colIdx_none_iff _ _).2 hc] at hn
      exact Option.noConfusion hn
    refine ⟨⟨t.schema, t.rows.map (fun r => r.set i (f (r.getD j Value.null)))⟩,
      fun r => r.set i (f (r.getD j Value.null)), ?_, rfl, ?_, ?_⟩
    · simp [withColumnFrom, hj, hn]
    · intro c
      constructor
      · exact fun h => Or.inl h
      · rintro (h | rfl)
        · exact h
        · exact hin
    · intro r hlen
      dsimp only
      refine ⟨by simp [hlen], ?_, ?_, ?_⟩
      · rw [hread r]; exact getCol_set_self hn hlen
      · intro c hc; rw [hread r]; exact getCol_set_other hc hn
      · intro v hv
        rcases List.mem_or_eq_of_mem_set hv with h1 | h2
        · exact Or.inl h1
        · right; rw [hread r] at h2; exact h2

theorem withColumnFrom_missing (t : Table) (name src : String) (f : Value → Value)
    (hsrc : src ∉ t.schema) :
    withColumnFrom t name src f = Except.error (PipeError.schemaError src) := by
  simp [withColumnFrom, (colIdx_none_iff _ _).2 hsrc]

theorem dropCol_char (t : Table) (c0 : String) :
    (dropCol t c0).rows = t.rows.map (dropRowCells t.schema c0) ∧
    (∀ c, c ∈ (dropCol t c0).schema ↔ c ∈ t.schema ∧ c ≠ c0) ∧
    ∀ r : Row, r.length = t.schema.length →
      (dropRowCells t.schema c0 r).length = (dropCol t c0).schema.length ∧
      (∀ c, c ≠ c0 → getCol (dropCol t c0).schema (dropRowCells t.schema c0 r) c
        = getCol t.schema r c) ∧
      (∀ v, v ∈ dropRowCells t.schema c0 r → v ∈ r) := by
  refine ⟨rfl, ?_, ?_⟩
  · intro c; simp [dropCol, List.mem_filter]
  · intro r hlen
    exact ⟨(dropRowCells_length hlen).trans rfl,
      fun c hc => getCol_dropRowCells hc hlen,
      fun v hv => mem_dropRowCells hv⟩

theorem whereCol_char (t : Table) (c : String) (p : Value → Bool) (hc : c ∈ t.schema) :
    whereCol t c p
      = Except.ok ⟨t.schema, t.rows.filter (fun r => p (getCol t.schema r c))⟩ := by
  obtain ⟨i, hi⟩ := colIdx_mem hc
  simp [whereCol, hi]

theorem whereCol_missing (t : Table) (c : String) (p : Value → Bool) (hc : c ∉ t.schema) :
    whereCol t c p = Except.error (PipeError.schemaError c) := by
  simp [whereCol, (colIdx_none_iff _ _).2 hc]

theorem firstMissing_none {s : List String} {cols : List String}
    (h : ∀ c ∈ cols, c ∈ s) : firstMissing s cols = none := by
  induction cols with
  | nil => rfl
  | cons c cs ih =>
    simp [firstMissing, h c (by simp)]
    exact ih (fun x hx => h x (by simp [hx]))

theorem firstMissing_some {s : List String} {cols : List String}
    (h : ∃ c ∈ cols, c ∉ s) : ∃ c, firstMissing s cols = some c ∧ c ∈ cols ∧ c ∉ s := by
  induction cols with
  | nil => simp at h
  | cons c cs ih =>
    by_cases hc : c ∈ s
    · rcases h with ⟨x, hx, hxs⟩
      have hxcs : x ∈ cs := by
        rcases List.mem_cons.1 hx with rfl | h2
        · exact absurd hc hxs
        · exact h2
      obtain ⟨y, hy, hycs, hys⟩ := ih ⟨x, hxcs, hxs⟩
      exact ⟨y, by simp [firstMissing, hc, hy], by simp [hycs], hys⟩
    · exact ⟨c, by simp [firstMissing, hc], by simp, hc⟩

theorem selectTable_ok (t : Table) (cols : List String)
    (h : ∀ c ∈ cols, c ∈ t.schema) :
    selectTable t cols
      = Except.ok ⟨cols, t.rows.map (fun r => cols.map (fun c => getCol t.schema r c))⟩ := by
  simp [selectTable, firstMissing_none h]

theorem selectTable_error (t : Table) (cols : List String)
    (h : ∃ c ∈ cols, c ∉ t.schema) :
    ∃ c, selectTable t cols = Except.error (PipeError.schemaError c)
      ∧ c ∈ cols ∧ c ∉ t.schema := by
  obtain ⟨c, hc, hcc, hcs⟩ := firstMissing_some h
  exact ⟨c, by simp [selectTable, hc], hcc, hcs⟩

theorem pickRows_perm (assign : Nat → Bool) :
    ∀ (i : Nat) (rs : List Row),
      List.Perm (pickRows assign true i rs ++ pickRows assign false i rs) rs := by
  intro i rs
  induction rs generalizing i with
  | nil => simp [pickRows]
  | cons r rest ih =>
    rcases h : assign i with _ | _
    · rw [show pickRows assign true i (r :: rest) = pickRows assign true (i + 1) rest from by
            simp [pickRows, h],
          show pickRows assign false i (r :: rest)
            = r :: pickRows assign false (i + 1) rest from by simp [pickRows, h]]
      exact List.perm_middle.trans ((ih (i + 1)).cons r)
    · rw [show pickRows assign true i (r :: rest)
            = r :: pickRows assign true (i + 1) rest from by simp [pickRows, h],
          show pickRows assign false i (r :: rest) = pickRows assign false (i + 1) rest from by
            simp [pickRows, h]]
      exact ((ih (i + 1)).cons r)

theorem pickRows_length (assign : Nat → Bool) (i : Nat) (rs : List Row) :
    (pickRows assign true i rs).length + (pickRows assign false i rs).length
      = rs.length := by
  have := (pickRows_perm assign i rs).length_eq
  simpa using this

/-! ### Characterization of `clean_data` -/

theorem trimUpperVal_ne_null {v : Value} (h : v ≠ Value.null) :
    trimUpperVal v ≠ Value.null := by
  cases v with
  | null => exact absurd rfl h
  | int n => simp [trimUpperVal]
  | str s => simp [trimUpperVal]

theorem airSchema_mem (s : List String) (c : String) :
    c ∈ airSchema s ↔ c ∈ s ∨ c = "Airline" := by
  rcases h : colIdx s "Airline" with _ | i
  · simp [airSchema, h]
  · have : "Airline" ∈ s := by
      by_contra hc
      rw [(colIdx_none_iff _ _).2 hc] at h
      exact Option.noConfusion h
    simp only [airSchema, h]
    constructor
    · exact fun hx => Or.inl hx
    · rintro (hx | rfl)
      · exact hx
      · exact this

theorem cleanRowAux_length {s : List String} {r : Row} (h : r.length = s.length) :
    (cleanRowAux s r).length = (airSchema s).length := by
  rcases hc : colIdx s "Airline" with _ | i
  · simp [cleanRowAux, airSchema, hc, h]
  · simp [cleanRowAux, airSchema, hc, h]

theorem cleanRowAux_airline {s : List String} {r : Row} (h : r.length = s.length) :
    getCol (airSchema s) (cleanRowAux s r) "Airline"
      = trimUpperVal (getCol s r "Reporting_Airline") := by
  rcases hc : colIdx s "Airline" with _ | i
  · simp only [cleanRowAux, airSchema, hc]
    exact getCol_append_self ((colIdx_none_iff _ _).1 hc) h
  · simp only [cleanRowAux, airSchema, hc]
    exact getCol_set_self hc h

theorem cleanRowAux_mem {s : List String} {r : Row} {v : Value}
    (hv : v ∈ cleanRowAux s r) :
    v ∈ r ∨ v = trimUpperVal (getCol s r "Reporting_Airline") := by
  rcases hc : colIdx s "Airline" with _ | i
  · simp only [cleanRowAux, hc] at hv
    rcases List.mem_append.1 hv with h1 | h2
    · exact Or.inl h1
    · right; simpa using h2
  · simp only [cleanRowAux, hc] at hv
    exact List.mem_or_eq_of_mem_set hv

theorem cleanRows_eq (s : List String) (rows : List Row) :
    ((((rows.filter (fun r => decide (Value.null ∉ r))).map (cleanRowAux s)).filter
        (fun r => decide (valueLength (getCol (airSchema s) r "Airline") = some 2))).map
      (dropRowCells (airSchema s) "Reporting_Airline"))
    = rows.filterMap (cleanRow s) := by
  induction rows with
  | nil => rfl
  | cons r rest ih =>
    by_cases h1 : Value.null ∉ r
    · rw [List.filter_cons, if_pos (by simpa using h1), List.map_cons, List.filter_cons]
      by_cases h2 : valueLength (getCol (airSchema s) (cleanRowAux s r) "Airline") = some 2
      · have hcr : cleanRow s r
            = some (dropRowCells (airSchema s) "Reporting_Airline" (cleanRowAux s r)) := by
          rw [cleanRow, if_pos h1, if_pos h2]
        rw [if_pos (by simpa using h2), List.map_cons, ih,
          List.filterMap_cons_some hcr]
      · have hcr : cleanRow s r = none := by
          rw [cleanRow, if_pos h1, if_neg h2]
        rw [if_neg (by simpa using h2), ih, List.filterMap_cons_none hcr]
    · have hcr : cleanRow s r = none := by
        rw [cleanRow, if_neg h1]
      rw [List.filter_cons, if_neg (by simpa using h1), ih,
        List.filterMap_cons_none hcr]

theorem clean_data_spec (t : Table) (p : Params)
    (hwf : TableWF t) (hR : "Reporting_Airline" ∈ t.schema) :
    ∃ u : Table, clean_data t p = Except.ok u ∧
      u.schema = cleanSchema t.schema ∧
      u.rows = t.rows.filterMap (cleanRow t.schema) ∧
      TableWF u ∧
      u.rows.length ≤ t.rows.length ∧
      (∀ c, c ∈ u.schema ↔ (c ∈ t.schema ∨ c = "Airline") ∧ c ≠ "Reporting_Airline") ∧
      (∀ r ∈ u.rows, Value.null ∉ r) ∧
      (∀ r ∈ u.rows, valueLength (getCol u.schema r "Airline") = some 2) := by
  have hs1 : (dropna t).schema = t.schema := rfl
  obtain ⟨j, hj⟩ := colIdx_mem hR
  -- the `withColumn` step produces the `airSchema` / `cleanRowAux` table
  have hstep2 : withColumnFrom (dropna t) "Airline" "Reporting_Airline" trimUpperVal
      = Except.ok ⟨airSchema t.schema, (dropna t).rows.map (cleanRowAux t.schema)⟩ := by
    rcases hc : colIdx t.schema "Airline" with _ | i
    · simp only [withColumnFrom, hs1, hj, hc, airSchema]
      refine congrArg Except.ok (congrArg (Table.mk _) ?_)
      refine List.map_congr_left fun r hr => ?_
      simp only [cleanRowAux, hc, getCol_eq hj]
    · simp only [withColumnFrom, hs1, hj, hc, airSchema]
      refine congrArg Except.ok (congrArg (Table.mk _) ?_)
      refine List.map_congr_left fun r hr => ?_
      simp only [cleanRowAux, hc, getCol_eq hj]
  have hair : "Airline" ∈ airSchema t.schema := (airSchema_mem _ _).2 (Or.inr rfl)
  have hstep3 := whereCol_char
    ⟨airSchema t.schema, (dropna t).rows.map (cleanRowAux t.schema)⟩
    "Airline" (fun v => decide (valueLength v = some 2)) hair
  have hu : clean_data t p = Except.ok (dropCol
      ⟨airSchema t.schema,
        ((dropna t).rows.map (cleanRowAux t.schema)).filter
          (fun r => decide (valueLength (getCol (airSchema t.schema) r "Airline")
            = some 2))⟩
      "Reporting_Airline") := by
    simp only [clean_data, hstep2, hstep3]
  refine ⟨_, hu, rfl, ?_, ?_, ?_, ?_, ?_, ?_⟩
  · -- the rows are exactly the per-row pipeline
    simpa [dropCol, dropna] using cleanRows_eq t.schema t.rows
  · -- well-formedness of the output
    intro r2 hr2
    simp only [dropCol, List.mem_map] at hr2
    obtain ⟨r3, hr3, rfl⟩ := hr2
    simp only [List.mem_filter, List.mem_map] at hr3
    obtain ⟨⟨r1, hr1, rfl⟩, hpred⟩ := hr3
    have hlen1 : r1.length = t.schema.length :=
      hwf r1 (List.mem_of_mem_filter hr1)
    have hlen3 : (cleanRowAux t.schema r1).length = (airSchema t.schema).length :=
      cleanRowAux_length hlen1
    simpa [dropCol, cleanSchema] using dropRowCells_length hlen3
  · -- row count does not increase
    simp only [dropCol, dropna, List.length_map]
    exact le_trans (List.length_filter_le _ _)
      (by simpa using List.length_filter_le _ t.rows)
  · -- output schema membership
    intro c
    simp only [dropCol, List.mem_filter, airSchema_mem, decide_eq_true_eq]
  · -- no nulls in any output row
    intro r2 hr2
    simp only [dropCol, List.mem_map] at hr2
    obtain ⟨r3, hr3, rfl⟩ := hr2
    simp only [List.mem_filter, List.mem_map] at hr3
    obtain ⟨⟨r1, hr1, rfl⟩, hpred⟩ := hr3
    have hr1mem := List.mem_of_mem_filter hr1
    have hr1null : Value.null ∉ r1 := by
      have := List.of_mem_filter hr1
      simpa using this
    intro hnull
    have hmem3 := mem_dropRowCells hnull
    rcases cleanRowAux_mem hmem3 with h1 | h2
    · exact hr1null h1
    · have hra : getCol t.schema r1 "Reporting_Airline" ∈ r1 :=
        getCol_mem hR (hwf r1 hr1mem)
      have : getCol t.schema r1 "Reporting_Airline" ≠ Value.null :=
        fun hc => hr1null (hc ▸ hra)
      exact trimUpperVal_ne_null this h2.symm
  · -- every Airline value in the output has length 2
    intro r2 hr2
    simp only [dropCol, List.mem_map] at hr2
    obtain ⟨r3, hr3, rfl⟩ := hr2
    simp only [List.mem_filter, List.mem_map] at hr3
    obtain ⟨⟨r1, hr1, rfl⟩, hpred⟩ := hr3
    have hlen1 : r1.length = t.schema.length :=
      hwf r1 (List.mem_of_mem_filter hr1)
    have hlen3 : (cleanRowAux t.schema r1).length = (airSchema t.schema).length :=
      cleanRowAux_length hlen1
    have hget := getCol_dropRowCells
      (show "Airline" ≠ "Reporting_Airline" by decide) hlen3
    simp only [dropCol]
    rw [hget]
    simpa using hpred

theorem clean_data_missing (t : Table) (p : Params)
    (h : "Reporting_Airline" ∉ t.schema) :
    clean_data t p = Except.error (PipeError.schemaError "Reporting_Airline") := by
  have : withColumnFrom (dropna t) "Airline" "Reporting_Airline" trimUpperVal
      = Except.error (PipeError.schemaError "Reporting_Airline") :=
    withColumnFrom_missing _ _ _ _ h
  simp only [clean_data, this]

/-! ### Characterization of `feature_extraction` -/

theorem rows_getD_map {l : List Row} {i : Nat} (f : Row → Row) (h : i < l.length) :
    (l.map f).getD i [] = f (l.getD i []) :=
  getD_map f h [] []

theorem feature_extraction_spec (t : Table) (p : Params)
    (hD : "DepTime" ∈ t.schema) (hF : "FlightDate" ∈ t.schema) :
    ∃ u : Table, feature_extraction t p = Except.ok u ∧
      "DepTime" ∉ u.schema ∧ "FlightDate" ∉ u.schema ∧
      "DepHour" ∈ u.schema ∧ "DepMonth" ∈ u.schema ∧ "DepYear" ∈ u.schema ∧
      u.rows.length = t.rows.length ∧
      (TableWF t → ∀ i, i < t.rows.length →
        getCell u "DepHour" i = depHourFn (getCell t "DepTime" i) ∧
        getCell u "DepMonth" i = dateSeg 1 (getCell t "FlightDate" i) ∧
        getCell u "DepYear" i = dateSeg 0 (getCell t "FlightDate" i)) := by
  obtain ⟨u1, g1, he1, hrows1, hmem1, hfacts1⟩ :=
    withColumnFrom_char t "DepHour" "DepTime" depHourFn hD
  obtain ⟨hrows2, hmem2, hfacts2⟩ := dropCol_char u1 "DepTime"
  have hFD2 : "FlightDate" ∈ (dropCol u1 "DepTime").schema :=
    (hmem2 _).2 ⟨(hmem1 _).2 (Or.inl hF), by decide⟩
  obtain ⟨u3, g3, he3, hrows3, hmem3, hfacts3⟩ :=
    withColumnFrom_char (dropCol u1 "DepTime") "DepMonth" "FlightDate" (dateSeg 1) hFD2
  have hFD3 : "FlightDate" ∈ u3.schema := (hmem3 _).2 (Or.inl hFD2)
  obtain ⟨u4, g4, he4, hrows4, hmem4, hfacts4⟩ :=
    withColumnFrom_char u3 "DepYear" "FlightDate" (dateSeg 0) hFD3
  obtain ⟨hrows5, hmem5, hfacts5⟩ := dropCol_char u4 "FlightDate"
  have hDT4 : "DepTime" ∉ u4.schema := by
    intro hc
    rcases (hmem4 _).1 hc with hc3 | hc3
    · rcases (hmem3 _).1 hc3 with hc2 | hc2
      · exact ((hmem2 _).1 hc2).2 rfl
      · exact absurd hc2 (by decide)
    · exact absurd hc3 (by decide)
  have hDH4 : "DepHour" ∈ u4.schema :=
    (hmem4 _).2 (Or.inl ((hmem3 _).2 (Or.inl ((hmem2 _).2
      ⟨(hmem1 _).2 (Or.inr rfl), by decide⟩))))
  have hDM4 : "DepMonth" ∈ u4.schema := (hmem4 _).2 (Or.inl ((hmem3 _).2 (Or.inr rfl)))
  have hDY4 : "DepYear" ∈ u4.schema := (hmem4 _).2 (Or.inr rfl)
  refine ⟨dropCol u4 "FlightDate", ?_, ?_, ?_, ?_, ?_, ?_, ?_, ?_⟩
  · simp only [feature_extraction, he1, he3, he4]
  · exact fun hc => hDT4 ((hmem5 _).1 hc).1
  · exact fun hc => ((hmem5 _).1 hc).2 rfl
  · exact (hmem5 _).2 ⟨hDH4, by decide⟩
  · exact (hmem5 _).2 ⟨hDM4, by decide⟩
  · exact (hmem5 _).2 ⟨hDY4, by decide⟩
  · simp [hrows5, hrows4, hrows3, hrows2, hrows1]
  · intro hwf i hi
    have hr : t.rows.getD i [] ∈ t.rows := getD_mem hi
    have hlen0 : (t.rows.getD i []).length = t.schema.length := hwf _ hr
    obtain ⟨hL1, hDH1, hO1, _⟩ := hfacts1 _ hlen0
    obtain ⟨hL2, hO2, _⟩ := hfacts2 _ hL1
    obtain ⟨hL3, hDM3, hO3, _⟩ := hfacts3 _ hL2
    obtain ⟨hL4, hDY4v, hO4, _⟩ := hfacts4 _ hL3
    obtain ⟨hL5, hO5, _⟩ := hfacts5 _ hL4
    have hrow : (dropCol u4 "FlightDate").rows.getD i []
        = dropRowCells u4.schema "FlightDate"
            (g4 (g3 (dropRowCells u1.schema "DepTime" (g1 (t.rows.getD i []))))) := by
      rw [hrows5, hrows4, hrows3, hrows2, hrows1]
      rw [rows_getD_map _ (by simpa using hi), rows_getD_map _ (by simpa using hi),
        rows_getD_map _ (by simpa using hi), rows_getD_map _ (by simpa using hi),
        rows_getD_map _ hi]
    refine ⟨?_, ?_, ?_⟩
    · show getCol (dropCol u4 "FlightDate").schema _ "DepHour"
        = depHourFn (getCol t.schema _ "DepTime")
      rw [hrow, hO5 _ (by decide), hO4 _ (by decide), hO3 _ (by decide),
        hO2 _ (by decide), hDH1]
    · show getCol (dropCol u4 "FlightDate").schema _ "DepMonth"
        = dateSeg 1 (getCol t.schema _ "FlightDate")
      rw [hrow, hO5 _ (by decide), hO4 _ (by decide), hDM3,
        hO2 _ (by decide), hO1 _ (by decide)]
    · show getCol (dropCol u4 "FlightDate").schema _ "DepYear"
        = dateSeg 0 (getCol t.schema _ "FlightDate")
      rw [hrow, hO5 _ (by decide), hDY4v, hO3 _ (by decide),
        hO2 _ (by decide), hO1 _ (by decide)]

theorem feature_extraction_missing (t : Table) (p : Params)
    (h : "DepTime" ∉ t.schema) :
    feature_extraction t p = Except.error (PipeError.schemaError "DepTime") := by
  have he := withColumnFrom_missing t "DepHour" "DepTime" depHourFn h
  simp only [feature_extraction, he]

/-! ### Inversion of a successful `selectTable` -/

theorem selectTable_inv {t : Table} {cols : List String} {d : Table}
    (h : selectTable t cols = Except.ok d) :
    d.schema = cols ∧
    d.rows = t.rows.map (fun r => cols.map (fun c => getCol t.schema r c)) := by
  unfold selectTable at h
  split at h
  · exact absurd h (by simp)
  · rw [Except.ok.injEq] at h
    subst h
    exact ⟨rfl, rfl⟩

/-! ### The claims -/

/-- C3 (amended): re-running the Cleaner on a table that already satisfies
the post-cleaning invariants is not a no-op: `clean_data` resolves the
`Reporting_Airline` column unconditionally, so on any table without that
column it fails with a schema (column-resolution) error, and
`feature_extraction` likewise fails without `DepTime`; hence Cleaner
followed by Deriver never returns such a table unchanged. -/
theorem C3_rerun_fails (t : Table) (p : Params)
    (h1 : "Reporting_Airline" ∉ t.schema) (h2 : "DepTime" ∉ t.schema) :
    clean_data t p = Except.error (PipeError.schemaError "Reporting_Airline") ∧
    feature_extraction t p = Except.error (PipeError.schemaError "DepTime") ∧
    rerunCleanDerive t p ≠ Except.ok t := by
  have hc := clean_data_missing t p h1
  have hf := feature_extraction_missing t p h2
  refine ⟨hc, hf, ?_⟩
  simp [rerunCleanDerive, hc]

/-- C4: for every well-formed input table containing a `Reporting_Airline`
column, the Cleaner succeeds and its output has no null value in any row,
every `Airline` value of length exactly 2, no `Reporting_Airline` column,
and at most as many rows as the input. -/
theorem C4_cleaner_invariants (t : Table) (p : Params)
    (hwf : TableWF t) (hR : "Reporting_Airline" ∈ t.schema) :
    ∃ u : Table, clean_data t p = Except.ok u ∧
      (∀ r ∈ u.rows, Value.null ∉ r) ∧
      (∀ r ∈ u.rows, valueLength (getCol u.schema r "Airline") = some 2) ∧
      "Reporting_Airline" ∉ u.schema ∧
      u.rows.length ≤ t.rows.length := by
  obtain ⟨u, he, hsch, hrows, hwfu, hle, hmem, hnull, hair⟩ := clean_data_spec t p hwf hR
  exact ⟨u, he, hnull, hair, fun hc => ((hmem _).1 hc).2 rfl, hle⟩

/-- C5: for every input table containing `DepTime` and `FlightDate`
columns, the Deriver succeeds and its output schema contains none of
`DepTime`, `FlightDate` but all of `DepHour`, `DepMonth`, `DepYear`; a raw
field never coexists with its derived counterpart. -/
theorem C5_deriver_schema (t : Table) (p : Params)
    (hD : "DepTime" ∈ t.schema) (hF : "FlightDate" ∈ t.schema) :
    ∃ u : Table, feature_extraction t p = Except.ok u ∧
      "DepTime" ∉ u.schema ∧ "FlightDate" ∉ u.schema ∧
      "DepHour" ∈ u.schema ∧ "DepMonth" ∈ u.schema ∧ "DepYear" ∈ u.schema ∧
      ¬("DepTime" ∈ u.schema ∧ "DepHour" ∈ u.schema) ∧
      ¬("FlightDate" ∈ u.schema ∧ "DepMonth" ∈ u.schema) ∧
      ¬("FlightDate" ∈ u.schema ∧ "DepYear" ∈ u.schema) := by
  obtain ⟨u, he, h1, h2, h3, h4, h5, _, _⟩ := feature_extraction_spec t p hD hF
  exact ⟨u, he, h1, h2, h3, h4, h5, fun hc => h1 hc.1, fun hc => h2 hc.1,
    fun hc => h2 hc.1⟩

/-- C6 (amended): on every well-formed table with `DepTime` and
`FlightDate`, for every row the Deriver computes `DepHour` as the
truncated-toward-zero division of the `DepTime` value by 100 (equal to
floor division for the nonnegative times of the dataset, but not for
negative values), and `DepMonth`/`DepYear` as the integer casts of
segments 1 and 0 of `FlightDate` split on `-`; in particular 1345 gives
13, and "2015-03-10" gives 2015 and 3. -/
theorem C6_derived_values (t : Table) (p : Params) (u : Table) (i : Nat)
    (hwf : TableWF t) (hD : "DepTime" ∈ t.schema) (hF : "FlightDate" ∈ t.schema)
    (h : feature_extraction t p = Except.ok u) (hi : i < t.rows.length) :
    getCell u "DepHour" i = depHourFn (getCell t "DepTime" i) ∧
    getCell u "DepMonth" i = dateSeg 1 (getCell t "FlightDate" i) ∧
    getCell u "DepYear" i = dateSeg 0 (getCell t "FlightDate" i) ∧
    (∀ n : Int, depHourFn (Value.int n) = Value.int (Int.tdiv n 100)) ∧
    depHourFn (Value.int 1345) = Value.int 13 ∧
    dateSeg 0 (Value.str "2015-03-10") = Value.int 2015 ∧
    dateSeg 1 (Value.str "2015-03-10") = Value.int 3 := by
  obtain ⟨u0, he, _, _, _, _, _, _, hcells⟩ := feature_extraction_spec t p hD hF
  have hu : u0 = u := by
    rw [he] at h
    exact Except.ok.inj h
  subst hu
  obtain ⟨e1, e2, e3⟩ := hcells hwf i hi
  exact ⟨e1, e2, e3, fun n => rfl, by decide, by decide, by decide⟩

/-- C7: the Selector returns exactly the `l_cols` schema, in order, with
the row count unchanged, whenever every requested column exists; when some
requested column is absent it fails with a schema error naming a missing
column. -/
theorem C7_selector (df : Table) (p : Params) :
    ((∀ c ∈ p.l_cols, c ∈ df.schema) →
      ∃ u : Table, select_cols df p = Except.ok u ∧ u.schema = p.l_cols ∧
        u.rows.length = df.rows.length) ∧
    ((∃ c ∈ p.l_cols, c ∉ df.schema) →
      ∃ c, select_cols df p = Except.error (PipeError.schemaError c) ∧
        c ∈ p.l_cols ∧ c ∉ df.schema) := by
  constructor
  · intro h
    exact ⟨_, selectTable_ok df p.l_cols h, rfl, by simp⟩
  · intro h
    obtain ⟨c, hc, hm, hn⟩ := selectTable_error df p.l_cols h
    exact ⟨c, hc, hm, hn⟩

/-- C8: a no-null row whose `Reporting_Airline` value is `" aa "` is kept
by the Cleaner, with `Airline` value `"AA"`; a row whose value is `"AAL"`
is dropped by the length filter, with no error raised. -/
theorem C8_cleaner_filtering (t : Table) (p : Params)
    (hwf : TableWF t) (hR : "Reporting_Airline" ∈ t.schema) :
    ∃ u : Table, clean_data t p = Except.ok u ∧
      u.rows = t.rows.filterMap (cleanRow t.schema) ∧
      ∀ r : Row, r.length = t.schema.length → Value.null ∉ r →
        (getCol t.schema r "Reporting_Airline" = Value.str " aa " →
          ∃ r2, cleanRow t.schema r = some r2 ∧
            getCol u.schema r2 "Airline" = Value.str "AA" ∧
            (r ∈ t.rows → r2 ∈ u.rows)) ∧
        (getCol t.schema r "Reporting_Airline" = Value.str "AAL" →
          cleanRow t.schema r = none) := by
  obtain ⟨u, he, hsch, hrows, hwfu, hle, hmem, hnull, hair⟩ := clean_data_spec t p hwf hR
  refine ⟨u, he, hrows, ?_⟩
  intro r hlen hnn
  have hauxlen := cleanRowAux_length hlen
  have haux := cleanRowAux_airline hlen
  constructor
  · intro hval
    have hAA : getCol (airSchema t.schema) (cleanRowAux t.schema r) "Airline"
        = Value.str "AA" := by
      rw [haux, hval]
      decide
    have hcond : valueLength (getCol (airSchema t.schema) (cleanRowAux t.schema r)
        "Airline") = some 2 := by
      rw [hAA]
      decide
    have hcr : cleanRow t.schema r
        = some (dropRowCells (airSchema t.schema) "Reporting_Airline"
            (cleanRowAux t.schema r)) := by
      rw [cleanRow, if_pos hnn, if_pos hcond]
    refine ⟨_, hcr, ?_, ?_⟩
    · rw [hsch]
      exact (getCol_dropRowCells
        (show "Airline" ≠ "Reporting_Airline" by decide) hauxlen).trans hAA
    · intro hrmem
      rw [hrows]
      exact List.mem_filterMap.2 ⟨r, hrmem, hcr⟩
  · intro hval
    have hAAL : getCol (airSchema t.schema) (cleanRowAux t.schema r) "Airline"
        = Value.str "AAL" := by
      rw [haux, hval]
      decide
    have hcond : ¬ valueLength (getCol (airSchema t.schema) (cleanRowAux t.schema r)
        "Airline") = some 2 := by
      rw [hAAL]
      decide
    rw [cleanRow, if_pos hnn, if_neg hcond]

/-- C9: neither the Cleaner nor the Deriver reads the configuration
object: running either with any two configurations on the same table
yields identical results. -/
theorem C9_params_noninterference (t : Table) (p1 p2 : Params) :
    clean_data t p1 = clean_data t p2 ∧
    feature_extraction t p1 = feature_extraction t p2 :=
  ⟨rfl, rfl⟩

/-- C10: for equal-length label sequences, the accuracy reporter divides
the number of agreeing positions by the length of `y_test` with no guard:
on a non-empty `y_test` it returns the match ratio (a rational in
`[0, 1]`), and on an empty `y_test` the division has no defined result. -/
theorem C10_report_accuracy (y_pred y_test : List Value)
    (hlen : y_pred.length = y_test.length) :
    (y_test ≠ [] →
      report_accuracy y_pred y_test
        = some ((matchCount y_pred y_test : ℚ) / (y_test.length : ℚ)) ∧
      ∀ q : ℚ, report_accuracy y_pred y_test = some q → 0 ≤ q ∧ q ≤ 1) ∧
    (y_test = [] → report_accuracy y_pred y_test = none) := by
  constructor
  · intro hne
    have hn : y_test.length ≠ 0 := fun hc => hne (List.length_eq_zero.1 hc)
    have heq : report_accuracy y_pred y_test
        = some ((matchCount y_pred y_test : ℚ) / (y_test.length : ℚ)) := by
      simp [report_accuracy, hlen, hn]
    refine ⟨heq, ?_⟩
    intro q hq
    rw [heq, Option.some.injEq] at hq
    subst hq
    have hm : matchCount y_pred y_test ≤ y_test.length := by
      calc matchCount y_pred y_test ≤ (y_pred.zip y_test).length :=
            List.length_filter_le _ _
        _ = min y_pred.length y_test.length := List.length_zip _ _
        _ ≤ y_test.length := min_le_right _ _
    have hpos : (0 : ℚ) < (y_test.length : ℚ) := by
      exact_mod_cast Nat.pos_of_ne_zero hn
    constructor
    · exact div_nonneg (by positivity) (le_of_lt hpos)
    · rw [div_le_one hpos]
      exact_mod_cast hm
  · intro hempty
    subst hempty
    simp [report_accuracy, List.length_eq_zero.1 hlen]

/-- C1: whenever the Splitter succeeds, its four outputs partition the
feature-restricted input: the train and test feature row counts add up to
the restricted input's row count (which equals the input's row count),
each label table has the same row count as its feature table, the two
feature tables together hold exactly the restricted rows with the target
column removed (a total and disjoint partition), and each label table has
exactly the single `target_column` column. -/
theorem C1_split_partition (data : Table) (p : Params) (assign : Nat → Bool)
    (Xtr Xte ytr yte : Table)
    (h : split_data data p assign = Except.ok (Xtr, Xte, ytr, yte)) :
    ∃ d : Table, selectTable data p.features = Except.ok d ∧
      d.rows.length = data.rows.length ∧
      Xtr.rows.length + Xte.rows.length = d.rows.length ∧
      ytr.rows.length = Xtr.rows.length ∧
      yte.rows.length = Xte.rows.length ∧
      List.Perm (Xtr.rows ++ Xte.rows)
        (d.rows.map (dropRowCells d.schema p.target_column)) ∧
      ytr.schema = [p.target_column] ∧ yte.schema = [p.target_column] := by
  unfold split_data at h
  split at h
  · exact absurd h (by simp)
  next d hd =>
    split at h
    · exact absurd h (by simp)
    next hw =>
      dsimp only at h
      split at h
      · exact absurd h (by simp)
      next ytr0 hyt =>
        split at h
        · exact absurd h (by simp)
        next yte0 hye =>
          rw [Except.ok.injEq, Prod.mk.injEq, Prod.mk.injEq, Prod.mk.injEq] at h
          obtain ⟨h1, h2, h3, h4⟩ := h
          subst h1
          subst h2
          subst h3
          subst h4
          obtain ⟨hdsch, hdrows⟩ := selectTable_inv hd
          obtain ⟨hytsch, hytrows⟩ := selectTable_inv hyt
          obtain ⟨hytesch, hyterows⟩ := selectTable_inv hye
          refine ⟨d, hd, ?_, ?_, ?_, ?_, ?_, hytsch, hytesch⟩
          · rw [hdrows]
            simp
          · simp only [dropCol, List.length_map]
            exact pickRows_length assign 0 d.rows
          · rw [hytrows]
            simp [dropCol]
          · rw [hyterows]
            simp [dropCol]
          · simp only [dropCol]
            rw [← List.map_append]
            exact (pickRows_perm assign 0 d.rows).map _

/-- C2 (amended): `split_data` performs no explicit configuration
validation and raises no `ConfigurationError` of its own: with
`train_fraction` outside `[0, 1]` it fails with the negative-weight error
of `randomSplit`; with a `target_column` not among the (present)
`features` it fails with a column-resolution error while building the
first label table; and for any `train_fraction` in the closed interval
`[0, 1]` (including the boundary values 0 and 1, which the claim says must
fail) with `target_column ∈ features` it succeeds. -/
theorem C2_split_validation (data : Table) (p : Params) (assign : Nat → Bool)
    (d : Table) (hsel : selectTable data p.features = Except.ok d) :
    ((p.train_fraction < 0 ∨ 1 < p.train_fraction) →
      split_data data p assign = Except.error PipeError.configError) ∧
    (0 ≤ p.train_fraction → p.train_fraction ≤ 1 → p.target_column ∉ p.features →
      split_data data p assign
        = Except.error (PipeError.schemaError p.target_column)) ∧
    (0 ≤ p.train_fraction → p.train_fraction ≤ 1 → p.target_column ∈ p.features →
      (split_data data p assign).isOk = true) := by
  obtain ⟨hdsch, hdrows⟩ := selectTable_inv hsel
  refine ⟨?_, ?_, ?_⟩
  · intro hbad
    have hcond : p.train_fraction < 0 ∨ 1 - p.train_fraction < 0 := by
      rcases hbad with hb | hb
      · exact Or.inl hb
      · exact Or.inr (sub_neg.2 hb)
    simp only [split_data, hsel]
    rw [if_pos hcond]
  · intro h0 h1 htgt
    have hcond : ¬(p.train_fraction < 0 ∨ 1 - p.train_fraction < 0) := by
      push_neg
      exact ⟨h0, by linarith⟩
    have hytr : selectTable ⟨d.schema, pickRows assign true 0 d.rows⟩
        [p.target_column] = Except.error (PipeError.schemaError p.target_column) := by
      obtain ⟨c, hc, hcm, hcn⟩ :=
        selectTable_error ⟨d.schema, pickRows assign true 0 d.rows⟩ [p.target_column]
          ⟨p.target_column, by simp, by simpa [hdsch] using htgt⟩
      have hce : c = p.target_column := by simpa using hcm
      subst hce
      exact hc
    simp only [split_data, hsel]
    rw [if_neg hcond]
    simp only [hytr]
  · intro h0 h1 htgt
    have hcond : ¬(p.train_fraction < 0 ∨ 1 - p.train_fraction < 0) := by
      push_neg
      exact ⟨h0, by linarith⟩
    have hsub : ∀ c ∈ [p.target_column], c ∈ d.schema := by
      intro c hc
      have hce : c = p.target_column := by simpa using hc
      subst hce
      rw [hdsch]
      exact htgt
    have hytr := selectTable_ok ⟨d.schema, pickRows assign true 0 d.rows⟩
      [p.target_column] hsub
    have hyte := selectTable_ok ⟨d.schema, pickRows assign false 0 d.rows⟩
      [p.target_column] hsub
    simp only [split_data, hsel]
    rw [if_neg hcond]
    simp only [hytr, hyte]
    rfl

/-! ### Witnesses and counterexamples on concrete data -/

/-- Witness for C1 on a two-row table split by row parity. -/
theorem C1_split_partition_witness :
    ∃ d : Table,
      selectTable ⟨["a", "t"], [[Value.int 1, Value.int 2], [Value.int 3, Value.int 4]]⟩
        ["a", "t"] = Except.ok d ∧
      d.rows.length
        = (⟨["a", "t"], [[Value.int 1, Value.int 2], [Value.int 3, Value.int 4]]⟩
            : Table).rows.length ∧
      (⟨["a"], [[Value.int 1]]⟩ : Table).rows.length
          + (⟨["a"], [[Value.int 3]]⟩ : Table).rows.length = d.rows.length ∧
      (⟨["t"], [[Value.int 2]]⟩ : Table).rows.length
        = (⟨["a"], [[Value.int 1]]⟩ : Table).rows.length ∧
      (⟨["t"], [[Value.int 4]]⟩ : Table).rows.length
        = (⟨["a"], [[Value.int 3]]⟩ : Table).rows.length ∧
      List.Perm ((⟨["a"], [[Value.int 1]]⟩ : Table).rows
          ++ (⟨["a"], [[Value.int 3]]⟩ : Table).rows)
        (d.rows.map (dropRowCells d.schema "t")) ∧
      (⟨["t"], [[Value.int 2]]⟩ : Table).schema = ["t"] ∧
      (⟨["t"], [[Value.int 4]]⟩ : Table).schema = ["t"] := by
  have hsel : selectTable
      ⟨["a", "t"], [[Value.int 1, Value.int 2], [Value.int 3, Value.int 4]]⟩ ["a", "t"]
      = Except.ok ⟨["a", "t"], [[Value.int 1, Value.int 2], [Value.int 3, Value.int 4]]⟩ := by
    decide
  have hcond : ¬((1 : ℚ)/2 < 0 ∨ 1 - (1 : ℚ)/2 < 0) := by norm_num
  have h : split_data
      ⟨["a", "t"], [[Value.int 1, Value.int 2], [Value.int 3, Value.int 4]]⟩
      ⟨[], ["a", "t"], "t", 1/2⟩ (fun i => i % 2 == 0)
      = Except.ok (⟨["a"], [[Value.int 1]]⟩, ⟨["a"], [[Value.int 3]]⟩,
          ⟨["t"], [[Value.int 2]]⟩, ⟨["t"], [[Value.int 4]]⟩) := by
    unfold split_data
    simp only [hsel]
    rw [if_neg hcond]
    decide
  exact C1_split_partition _ _ _ _ _ _ _ h

/-- Witness for C2 (amended): `train_fraction = 2` makes the second
`randomSplit` weight negative, so `split_data` fails with the
negative-weight error. -/
theorem C2_split_validation_witness :
    split_data ⟨["a", "t"], [[Value.int 1, Value.int 2]]⟩ ⟨[], ["a", "t"], "t", 2⟩
      (fun i => true) = Except.error PipeError.configError := by
  have h := C2_split_validation ⟨["a", "t"], [[Value.int 1, Value.int 2]]⟩
    ⟨[], ["a", "t"], "t", 2⟩ (fun i => true)
    ⟨["a", "t"], [[Value.int 1, Value.int 2]]⟩ (by decide)
  exact h.1 (Or.inr (by norm_num))

/-- Counterexample to C2 as stated: `train_fraction = 1` is not strictly
between 0 and 1, yet `split_data` succeeds, raising no error of any
kind. -/
theorem C2_config_cex :
    ¬((0 : ℚ) < 1 ∧ (1 : ℚ) < 1) ∧
    (split_data ⟨["a", "t"], [[Value.int 1, Value.int 2]]⟩ ⟨[], ["a", "t"], "t", 1⟩
      (fun i => true)).isOk = true := by
  constructor
  · simp
  · have hsel : selectTable ⟨["a", "t"], [[Value.int 1, Value.int 2]]⟩ ["a", "t"]
        = Except.ok ⟨["a", "t"], [[Value.int 1, Value.int 2]]⟩ := by decide
    have hcond : ¬((1 : ℚ) < 0 ∨ 1 - (1 : ℚ) < 0) := by norm_num
    unfold split_data
    simp only [hsel]
    rw [if_neg hcond]
    decide

/-- Witness for C3 (amended) on a concrete already-cleaned table. -/
theorem C3_rerun_fails_witness :
    clean_data ⟨["Airline", "DepHour"], [[Value.str "AA", Value.int 13]]⟩
        ⟨[], [], "t", 1⟩
      = Except.error (PipeError.schemaError "Reporting_Airline") ∧
    feature_extraction ⟨["Airline", "DepHour"], [[Value.str "AA", Value.int 13]]⟩
        ⟨[], [], "t", 1⟩
      = Except.error (PipeError.schemaError "DepTime") ∧
    rerunCleanDerive ⟨["Airline", "DepHour"], [[Value.str "AA", Value.int 13]]⟩
        ⟨[], [], "t", 1⟩
      ≠ Except.ok ⟨["Airline", "DepHour"], [[Value.str "AA", Value.int 13]]⟩ :=
  C3_rerun_fails _ _ (by decide) (by decide)

/-- Counterexample to C3 as stated: a table satisfying all the
post-cleaning and post-derivation invariants on which re-running the
Cleaner (and hence Cleaner-then-Deriver) raises a column-resolution error
instead of being a no-op. -/
theorem C3_noop_cex :
    "Reporting_Airline" ∉ (⟨["Airline", "DepHour", "DepMonth", "DepYear", "DepDelay"],
        [[Value.str "AA", Value.int 13, Value.int 3, Value.int 2015, Value.int 5]]⟩
        : Table).schema ∧
    "DepTime" ∉ (⟨["Airline", "DepHour", "DepMonth", "DepYear", "DepDelay"],
        [[Value.str "AA", Value.int 13, Value.int 3, Value.int 2015, Value.int 5]]⟩
        : Table).schema ∧
    "FlightDate" ∉ (⟨["Airline", "DepHour", "DepMonth", "DepYear", "DepDelay"],
        [[Value.str "AA", Value.int 13, Value.int 3, Value.int 2015, Value.int 5]]⟩
        : Table).schema ∧
    (∀ r ∈ (⟨["Airline", "DepHour", "DepMonth", "DepYear", "DepDelay"],
        [[Value.str "AA", Value.int 13, Value.int 3, Value.int 2015, Value.int 5]]⟩
        : Table).rows, Value.null ∉ r ∧
      valueLength (getCol ["Airline", "DepHour", "DepMonth", "DepYear", "DepDelay"]
        r "Airline") = some 2) ∧
    rerunCleanDerive ⟨["Airline", "DepHour", "DepMonth", "DepYear", "DepDelay"],
        [[Value.str "AA", Value.int 13, Value.int 3, Value.int 2015, Value.int 5]]⟩
        ⟨[], [], "t", 1⟩
      = Except.error (PipeError.schemaError "Reporting_Airline") := by
  decide

/-- Witness for C4 on a three-row table (one kept, one filtered by the
length check, one dropped by `dropna`). -/
theorem C4_cleaner_invariants_witness :
    ∃ u : Table,
      clean_data ⟨["Reporting_Airline", "DepDelay"],
          [[Value.str " aa ", Value.int 5], [Value.str "AAL", Value.int 7],
            [Value.null, Value.int 9]]⟩ ⟨[], [], "t", 1⟩ = Except.ok u ∧
      (∀ r ∈ u.rows, Value.null ∉ r) ∧
      (∀ r ∈ u.rows, valueLength (getCol u.schema r "Airline") = some 2) ∧
      "Reporting_Airline" ∉ u.schema ∧
      u.rows.length ≤ (⟨["Reporting_Airline", "DepDelay"],
          [[Value.str " aa ", Value.int 5], [Value.str "AAL", Value.int 7],
            [Value.null, Value.int 9]]⟩ : Table).rows.length :=
  C4_cleaner_invariants _ _ (by decide) (by decide)

/-- Witness for C5 on a concrete raw table. -/
theorem C5_deriver_schema_witness :
    ∃ u : Table,
      feature_extraction ⟨["DepTime", "FlightDate"],
          [[Value.int 1345, Value.str "2015-03-10"]]⟩ ⟨[], [], "t", 1⟩
        = Except.ok u ∧
      "DepTime" ∉ u.schema ∧ "FlightDate" ∉ u.schema ∧
      "DepHour" ∈ u.schema ∧ "DepMonth" ∈ u.schema ∧ "DepYear" ∈ u.schema ∧
      ¬("DepTime" ∈ u.schema ∧ "DepHour" ∈ u.schema) ∧
      ¬("FlightDate" ∈ u.schema ∧ "DepMonth" ∈ u.schema) ∧
      ¬("FlightDate" ∈ u.schema ∧ "DepYear" ∈ u.schema) :=
  C5_deriver_schema _ _ (by decide) (by decide)

/-- Witness for C6 (amended) on the spec's own example row. -/
theorem C6_derived_values_witness :
    getCell ⟨["DepHour", "DepMonth", "DepYear"],
        [[Value.int 13, Value.int 3, Value.int 2015]]⟩ "DepHour" 0
      = depHourFn (getCell ⟨["DepTime", "FlightDate"],
          [[Value.int 1345, Value.str "2015-03-10"]]⟩ "DepTime" 0) ∧
    getCell ⟨["DepHour", "DepMonth", "DepYear"],
        [[Value.int 13, Value.int 3, Value.int 2015]]⟩ "DepMonth" 0
      = dateSeg 1 (getCell ⟨["DepTime", "FlightDate"],
          [[Value.int 1345, Value.str "2015-03-10"]]⟩ "FlightDate" 0) ∧
    getCell ⟨["DepHour", "DepMonth", "DepYear"],
        [[Value.int 13, Value.int 3, Value.int 2015]]⟩ "DepYear" 0
      = dateSeg 0 (getCell ⟨["DepTime", "FlightDate"],
          [[Value.int 1345, Value.str "2015-03-10"]]⟩ "FlightDate" 0) ∧
    (∀ n : Int, depHourFn (Value.int n) = Value.int (Int.tdiv n 100)) ∧
    depHourFn (Value.int 1345) = Value.int 13 ∧
    dateSeg 0 (Value.str "2015-03-10") = Value.int 2015 ∧
    dateSeg 1 (Value.str "2015-03-10") = Value.int 3 :=
  C6_derived_values ⟨["DepTime", "FlightDate"],
      [[Value.int 1345, Value.str "2015-03-10"]]⟩ ⟨[], [], "t", 1⟩
    ⟨["DepHour", "DepMonth", "DepYear"], [[Value.int 13, Value.int 3, Value.int 2015]]⟩
    0 (by decide) (by decide) (by decide) (by decide) (by decide)

/-- Counterexample to C6 as stated: for `DepTime = -150` the code computes
`DepHour = -1` (truncation toward zero of `-1.5`), while floor division
gives `-2`. -/
theorem C6_floor_cex :
    feature_extraction ⟨["DepTime", "FlightDate"],
        [[Value.int (-150), Value.str "2015-03-10"]]⟩ ⟨[], [], "t", 1⟩
      = Except.ok ⟨["DepHour", "DepMonth", "DepYear"],
          [[Value.int (-1), Value.int 3, Value.int 2015]]⟩ ∧
    getCell ⟨["DepHour", "DepMonth", "DepYear"],
        [[Value.int (-1), Value.int 3, Value.int 2015]]⟩ "DepHour" 0
      = Value.int (-1) ∧
    Int.fdiv (-150) 100 = -2 ∧
    Value.int (-1) ≠ Value.int (Int.fdiv (-150) 100) := by
  decide

/-- Witness for C7: a successful projection onto a reordered column
subset. -/
theorem C7_selector_witness :
    ∃ u : Table,
      select_cols ⟨["x", "y"], [[Value.int 1, Value.int 2]]⟩ ⟨["y", "x"], [], "t", 1⟩
        = Except.ok u ∧
      u.schema = ["y", "x"] ∧
      u.rows.length
        = (⟨["x", "y"], [[Value.int 1, Value.int 2]]⟩ : Table).rows.length :=
  (C7_selector ⟨["x", "y"], [[Value.int 1, Value.int 2]]⟩
    ⟨["y", "x"], [], "t", 1⟩).1 (by decide)

/-- Witness for C8 on a two-row table holding the spec's two example
airline codes. -/
theorem C8_cleaner_filtering_witness :
    ∃ u : Table,
      clean_data ⟨["Reporting_Airline"], [[Value.str " aa "], [Value.str "AAL"]]⟩
          ⟨[], [], "t", 1⟩ = Except.ok u ∧
      u.rows = [[Value.str " aa "], [Value.str "AAL"]].filterMap
        (cleanRow ["Reporting_Airline"]) ∧
      ∀ r : Row, r.length = (["Reporting_Airline"] : List String).length →
        Value.null ∉ r →
        (getCol ["Reporting_Airline"] r "Reporting_Airline" = Value.str " aa " →
          ∃ r2, cleanRow ["Reporting_Airline"] r = some r2 ∧
            getCol u.schema r2 "Airline" = Value.str "AA" ∧
            (r ∈ (⟨["Reporting_Airline"], [[Value.str " aa "], [Value.str "AAL"]]⟩
              : Table).rows → r2 ∈ u.rows)) ∧
        (getCol ["Reporting_Airline"] r "Reporting_Airline" = Value.str "AAL" →
          cleanRow ["Reporting_Airline"] r = none) :=
  C8_cleaner_filtering ⟨["Reporting_Airline"], [[Value.str " aa "], [Value.str "AAL"]]⟩
    ⟨[], [], "t", 1⟩ (by decide) (by decide)

/-- Witness for C10 on concrete label sequences (one of two matches). -/
theorem C10_report_accuracy_witness :
    ((([Value.int 1, Value.int 2] : List Value) ≠ [] →
      report_accuracy [Value.int 1, Value.int 3] [Value.int 1, Value.int 2]
        = some ((matchCount [Value.int 1, Value.int 3] [Value.int 1, Value.int 2] : ℚ)
            / (([Value.int 1, Value.int 2] : List Value).length : ℚ)) ∧
      ∀ q : ℚ, report_accuracy [Value.int 1, Value.int 3] [Value.int 1, Value.int 2]
        = some q → 0 ≤ q ∧ q ≤ 1) ∧
    (([Value.int 1, Value.int 2] : List Value) = [] →
      report_accuracy [Value.int 1, Value.int 3] [Value.int 1, Value.int 2] = none)) :=
  C10_report_accuracy [Value.int 1, Value.int 3] [Value.int 1, Value.int 2] rfl

end FlightDelays
